import Mathlib

set_option maxRecDepth 8000

/-!
Verification development for the gee-data-fetcher repository.

The repository is a batch pipeline that slices a date range into calendar
periods (src/gee_data_fetcher/dates_functions.py), runs remote export tasks
with retries (src/gee_data_fetcher/ee_helper.py), and downloads and cleans up
the resulting files (src/gee_data_fetcher/main.py and
src/gee_data_fetcher/drive_helper.py).

The Python code manipulates pendulum datetimes.  We embed the proleptic
Gregorian calendar that pendulum implements: dates as year/month/day records,
a day ordinal (days since 0001-01-01), calendar-aware month addition with
day-of-month clamping, and timestamps as day ordinal plus microsecond of day.
Years are modelled as unbounded naturals (the Python MAXYEAR overflow guard is
not modelled; all claims stay far below year 9999).
-/

namespace GeeFetch

/-! ## Calendar model (shallow embedding of the pendulum date arithmetic) -/

/-- Gregorian leap year test, as in the Python calendar module used by
pendulum: divisible by 4 and (not by 100 or by 400). -/
def isLeap (y : Nat) : Bool := y % 4 == 0 && (y % 100 != 0 || y % 400 == 0)

/-- Length of month `m` (1..12) in a year with leap flag `leap`; 0 outside
the valid month range. -/
def monthLen (leap : Bool) (m : Nat) : Nat :=
  match m with
  | 1 => 31
  | 2 => if leap then 29 else 28
  | 3 => 31
  | 4 => 30
  | 5 => 31
  | 6 => 30
  | 7 => 31
  | 8 => 31
  | 9 => 30
  | 10 => 31
  | 11 => 30
  | 12 => 31
  | _ => 0

/-- Number of days in the months strictly before month `m` of a year with
leap flag `leap`. -/
def monthsBefore (leap : Bool) : Nat → Nat
  | 0 => 0
  | m + 1 => monthsBefore leap m + monthLen leap m

/-- Number of days of a year with leap flag `leap`. -/
def yearLen (leap : Bool) : Nat := if leap then 366 else 365

/-- Number of days in month `m` of year `y`. -/
def daysInMonth (y m : Nat) : Nat := monthLen (isLeap y) m

/-- Number of days of year `y`. -/
def daysInYear (y : Nat) : Nat := yearLen (isLeap y)

/-- Number of days in a full 400-year Gregorian cycle (the leap pattern of
the Gregorian calendar repeats every 400 years). -/
def daysPer400Years : Nat := 146097

/-- Year scan for the tail of `daysBeforeYear`: days in the years strictly
before year `y`, counted naively; only ever applied to years at most 400,
which keeps every evaluation shallow. -/
def daysBeforeYearSmall : Nat → Nat
  | 0 => 0
  | 1 => 0
  | y + 2 => daysBeforeYearSmall (y + 1) + daysInYear (y + 1)

/-- Number of days in the years strictly before year `y` (years start at 1,
as in the Python datetime model underlying pendulum).  Whole 400-year
cycles are counted in one step; the remainder is scanned, using that the
Gregorian leap pattern has period 400. -/
def daysBeforeYear (y : Nat) : Nat :=
  146097 * ((y - 1) / 400) + daysBeforeYearSmall ((y - 1) % 400 + 1)

/-- A calendar date.  `valid` states the datetime.date invariants. -/
structure Date where
  year : Nat
  month : Nat
  day : Nat
deriving DecidableEq, Repr

def Date.valid (d : Date) : Prop :=
  1 ≤ d.year ∧ 1 ≤ d.month ∧ d.month ≤ 12 ∧ 1 ≤ d.day ∧ d.day ≤ daysInMonth d.year d.month

instance (d : Date) : Decidable d.valid := by unfold Date.valid; infer_instance

/-- Day ordinal of a date: the number of days since 0001-01-01 (which has
ordinal 0).  This is the `toordinal` view of the datetime model, shifted by
one so that it starts at zero. -/
def Date.toOrdinal (d : Date) : Nat :=
  daysBeforeYear d.year + monthsBefore (isLeap d.year) d.month + (d.day - 1)

/-- Locate the month containing day offset `n` (0-based) of a year with leap
flag `leap`, scanning from month `m` with `f` months of fuel left; returns
the month and the 1-based day. -/
def monthSearch (leap : Bool) : Nat → Nat → Nat → Nat × Nat
  | 0, m, n => (m, n + 1)
  | f + 1, m, n =>
    if n < monthLen leap m then (m, n + 1)
    else monthSearch leap f (m + 1) (n - monthLen leap m)

/-- Convert a day ordinal back to a date, scanning years from `y` with fuel
`f` (any fuel above the ordinal suffices, since each scanned year consumes at
least 365 days). -/
def ofOrdinalAux : Nat → Nat → Nat → Date
  | 0, y, n => ⟨y, 1, n + 1⟩
  | f + 1, y, n =>
    if n < daysInYear y then
      let p := monthSearch (isLeap y) 11 1 n
      ⟨y, p.1, p.2⟩
    else ofOrdinalAux f (y + 1) (n - daysInYear y)

/-- Inverse of `Date.toOrdinal` on valid dates: whole 400-year cycles are
skipped in one step, then the year scan starts in the first year of the
cycle containing day `n`, so at most 400 years are ever scanned. -/
def ofOrdinal (n : Nat) : Date :=
  ofOrdinalAux (n % 146097 + 1) (400 * (n / 146097) + 1) (n % 146097)

/-- Date plus `k` days (timedelta addition in the datetime model). -/
def Date.addDays (d : Date) (k : Nat) : Date := ofOrdinal (d.toOrdinal + k)

/-- Date minus `k` days.  The subtraction is truncated at 0001-01-01; the
source never reaches that boundary in the scenarios of the claims. -/
def Date.subDays (d : Date) (k : Nat) : Date := ofOrdinal (d.toOrdinal - k)

/-- Calendar month addition with day-of-month clamping, exactly the
pendulum/dateutil `add(months=k)` rule: advance the month index and clamp
the day to the length of the target month (Jan 31 plus one month is
Feb 28/29). -/
def Date.addMonths (d : Date) (k : Nat) : Date :=
  ⟨(12 * d.year + (d.month - 1) + k) / 12,
   (12 * d.year + (d.month - 1) + k) % 12 + 1,
   min d.day (daysInMonth ((12 * d.year + (d.month - 1) + k) / 12)
     ((12 * d.year + (d.month - 1) + k) % 12 + 1))⟩

/-- Microseconds per day; pendulum datetimes have microsecond resolution. -/
def usecPerDay : Nat := 86400000000

/-- A pendulum DateTime: a calendar date plus the microsecond of day. -/
structure DateTime where
  date : Date
  usec : Nat
deriving DecidableEq, Repr

def DateTime.valid (dt : DateTime) : Prop := dt.date.valid ∧ dt.usec < usecPerDay

/-- Total timestamp key; pendulum datetime comparison is comparison of this
timestamp. -/
def DateTime.key (dt : DateTime) : Nat := usecPerDay * dt.date.toOrdinal + dt.usec

/-- The period-unit strings produced by `parse_period_unit`. -/
def IsPeriodUnit (u : String) : Prop :=
  u = "days" ∨ u = "weeks" ∨ u = "months" ∨ u = "years"

/-- Add `n` units to a datetime: `dt + pendulum.duration(**{u: n})`.
pendulum adds weeks as 7 days and years as 12 calendar months, keeping the
time of day.  Unit strings other than the four produced by
`parse_period_unit` never reach this operation in the source. -/
def DateTime.addUnit (dt : DateTime) (u : String) (n : Nat) : DateTime :=
  if u = "days" then ⟨dt.date.addDays n, dt.usec⟩
  else if u = "weeks" then ⟨dt.date.addDays (7 * n), dt.usec⟩
  else if u = "months" then ⟨dt.date.addMonths n, dt.usec⟩
  else if u = "years" then ⟨dt.date.addMonths (12 * n), dt.usec⟩
  else dt

/-- Subtract one day: `dt - pendulum.duration(days=1)`. -/
def DateTime.subDay (dt : DateTime) : DateTime := ⟨dt.date.subDays 1, dt.usec⟩

/-- Go to the last instant of the day, 23:59:59.999999: pendulum
`end_of( "day")`. -/
def DateTime.end_of_day (dt : DateTime) : DateTime := ⟨dt.date, usecPerDay - 1⟩

def digitVal (c : Char) : Nat := c.toNat - 48

/-- Models `pendulum.parse` restricted to the `YYYY-MM-DD` date strings the
claims use (pendulum accepts more ISO-8601 forms; it validates the calendar
date and raises on malformed input, modelled as `none`). -/
def parseDate (s : String) : Option DateTime :=
  match s.data with
  | [y1, y2, y3, y4, s1, m1, m2, s2, d1, d2] =>
    if y1.isDigit ∧ y2.isDigit ∧ y3.isDigit ∧ y4.isDigit ∧ s1 = '-' ∧
        m1.isDigit ∧ m2.isDigit ∧ s2 = '-' ∧ d1.isDigit ∧ d2.isDigit then
      if (Date.mk (1000 * digitVal y1 + 100 * digitVal y2 + 10 * digitVal y3 + digitVal y4)
          (10 * digitVal m1 + digitVal m2) (10 * digitVal d1 + digitVal d2)).valid then
        some ⟨Date.mk (1000 * digitVal y1 + 100 * digitVal y2 + 10 * digitVal y3 + digitVal y4)
          (10 * digitVal m1 + digitVal m2) (10 * digitVal d1 + digitVal d2), 0⟩
      else none
    else none
  | _ => none

/-! ## dates_functions.py : parse_period_unit, parse_period, iter_periods -/

/-- Embeds `parse_period_unit` (src/gee_data_fetcher/dates_functions.py,
lines 79-90): map a single lowercase character to the full unit name, with
the exact error message of the source. -/
def parse_period_unit (c : Char) : Except String String :=
  if c = 'd' then Except.ok "days"
  else if c = 'w' then Except.ok "weeks"
  else if c = 'm' then Except.ok "months"
  else if c = 'y' then Except.ok "years"
  else Except.error ( "Invalid period unit: " ++ String.mk [c])

/-- Python `str.isdigit` on the ASCII strings of this code base: nonempty
and all characters are decimal digits. -/
def pyIsDigit (cs : List Char) : Bool := !cs.isEmpty && cs.all Char.isDigit

/-- Numeric value of a digit string, as Python `int` computes it. -/
def digitsToNat (cs : List Char) : Nat := cs.foldl (fun n c => 10 * n + digitVal c) 0

/-- Embeds `parse_period` (src/gee_data_fetcher/dates_functions.py, lines
57-76; duplicated verbatim in src/gee_data_fetcher/main.py lines 16-35):
a short token guard for bare digits, then the unit from the last character
lowercased, then the count from the numeric prefix (default 1 for length-1
tokens).  Error messages are those of the source.  Python raises IndexError
on the empty string; that is modelled as an error as well. -/
def parse_period (s : String) : Except String (Nat × String) :=
  match s.data.getLast? with
  | none => Except.error "Invalid period size format (empty string)."
  | some last =>
    if s.data.length < 2 ∧ last.isDigit then
      Except.error ( "Invalid period size format (" ++ String.mk [last] ++
        " does not represent a valid period unit).")
    else
      match parse_period_unit last.toLower with
      | Except.error m => Except.error m
      | Except.ok unit =>
        if s.data.length = 1 then Except.ok (1, unit)
        else if pyIsDigit s.data.dropLast then Except.ok (digitsToNat s.data.dropLast, unit)
        else Except.error ( "Invalid period size format (" ++ String.mk s.data.dropLast ++
          " is not a number).")

/-- A pendulum Interval, `{start, end}`.  The source builds it as
`end_datetime - period_start`, which yields the interval from `period_start`
to the computed end. -/
structure Interval where
  start : DateTime
  end_ : DateTime
deriving DecidableEq, Repr

/-- The period-end expression inlined in `iter_periods`
(src/gee_data_fetcher/dates_functions.py, lines 39-47):
`(period_start + duration(unit: size) - duration(days=1)).end_of( "day")`. -/
def periodEnd (ps : DateTime) (unit : String) (size : Nat) : DateTime :=
  ((ps.addUnit unit size).subDay).end_of_day

/-- Embeds `pendulum.interval(s, e).range(u, a)` for `s <= e`: the source
loop yields `s.add(**{u: k * a})` for `k = 0, 1, ...` while the value is
`<= e`, always recomputing from the original start.  For `a = 0` the loop
never terminates (it re-adds zero units to the fixed start forever), so no
finite sequence exists; that is modelled as `none`.  The inverted mode of
pendulum (for `s > e`) is not modelled; the claims all range forward.  The
`List.range` bound strictly exceeds every index the loop can accept, because
each step advances the date by at least one day. -/
def rangeStarts (s e : DateTime) (u : String) (a : Nat) : Option (List DateTime) :=
  if a = 0 then none
  else some (((List.range (e.date.toOrdinal - s.date.toOrdinal + 2)).map
    (fun k => s.addUnit u (k * a))).takeWhile (fun dt => decide (dt.key ≤ e.key)))

/-- The frequency defaulting of `iter_periods` (dates_functions.py, lines
31-35): parse the frequency token when given, otherwise reuse the parsed
period size and unit. -/
def freqSpec (period_frequency : Option String) (size : Nat) (unit : String) :
    Except String (Nat × String) :=
  match period_frequency with
  | some f => parse_period f
  | none => Except.ok (size, unit)

/-- Embeds `iter_periods` (src/gee_data_fetcher/dates_functions.py, lines
13-54).  `now` is the clock value used when the end string is the sentinel
`"now"`.  Parse failures (which raise in Python) and the non-terminating
zero-frequency range are modelled as `none`; otherwise the result is the
finite list of generated intervals. -/
def iter_periods (now : DateTime) (start end_ period_size : String)
    (period_frequency : Option String) : Option (List Interval) :=
  match parseDate start with
  | none => none
  | some s =>
    match (if end_ = "now" then some now else parseDate end_) with
    | none => none
    | some e =>
      match parse_period period_size with
      | Except.error _ => none
      | Except.ok (size, unit) =>
        match freqSpec period_frequency size unit with
        | Except.error _ => none
        | Except.ok (freq, funit) =>
          match rangeStarts s e funit freq with
          | none => none
          | some starts => some (starts.map (fun ps => ⟨ps, periodEnd ps unit size⟩))

/-! ## main.py : get_period_end -/

/-- Embeds `get_period_end` (src/gee_data_fetcher/main.py, lines 52-65),
the standalone copy of the period-end computation used by the orchestrator. -/
def get_period_end (period_start : DateTime) (period_unit : String)
    (period_size : Nat) : DateTime :=
  ((period_start.addUnit period_unit period_size).subDay).end_of_day

/-! ## ee_helper.py : run_task -/

/-- Embeds `run_task` (src/gee_data_fetcher/ee_helper.py, lines 79-97).
The inner submit-and-poll block is abstracted by the oracle `fails`:
`fails i = true` means the i-th submission of the task ends in the FAILED
state or raises.  `update_time` only throttles the inner polling loop and
does not influence the retry structure; it is carried along unchanged.
The result records the number of submissions made, the list of sleep delays
taken before each retry (the source sleeps `delay_time` and recurses with
`delay_time * 2` and `max_retry - 1`), and the outcome: `Except.ok ()` for a
COMPLETED task, or the source's RuntimeError message once the retry budget
is exhausted. -/
def run_task (fails : Nat → Bool) (desc : String) (update_time : Nat) :
    Nat → Nat → Nat → Nat × List Nat × Except String Unit
  | _, 0, i =>
    if fails i then (1, [], Except.error ( "Task " ++ desc ++ " failed."))
    else (1, [], Except.ok ())
  | delay_time, max_retry + 1, i =>
    if fails i then
      let r := run_task fails desc update_time (delay_time * 2) max_retry (i + 1)
      (r.1 + 1, delay_time :: r.2.1, r.2.2)
    else (1, [], Except.ok ())

/-! ## drive_helper.py and the fetch-and-clean part of main.py -/

/-- A Google Drive item as drive_helper.py names it: an opaque id and a
title. -/
structure Item where
  id : Nat
  title : String
deriving DecidableEq, Repr

/-- Substring test on character lists, used to model the Drive query
`title contains 'q'`. -/
def isPrefixL : List Char → List Char → Bool
  | [], _ => true
  | _ :: _, [] => false
  | a :: as, b :: bs => a == b && isPrefixL as bs

def containsL (q : List Char) : List Char → Bool
  | [] => isPrefixL q []
  | c :: ts => isPrefixL q (c :: ts) || containsL q ts

/-- State of the modelled Drive interaction: the remote files, the titles
downloaded to the local output directory, and (instrumentation) the ids of
every `download_file` call in order, so that attempt counts are observable. -/
structure FetchState where
  files : List Item
  downloaded : List String
  attempts : List Nat
deriving DecidableEq, Repr

/-- Embeds `GoogleDriveHelper.search` (src/gee_data_fetcher/drive_helper.py,
lines 72-76): all non-trashed items whose title contains the query string. -/
def search (files : List Item) (query : String) : List Item :=
  files.filter (fun it => containsL query.data it.title.data)

/-- Embeds `GoogleDriveHelper.download_file` (drive_helper.py, lines 84-87):
one GetContentFile call, recorded in `attempts`; the boolean result is
whether the call succeeded (`ok it = false` models the call raising). -/
def download_file (ok : Item → Bool) (st : FetchState) (it : Item) : FetchState × Bool :=
  (⟨st.files,
    if ok it then st.downloaded ++ [it.title] else st.downloaded,
    st.attempts ++ [it.id]⟩, ok it)

/-- Embeds `GoogleDriveHelper.delete_file` (drive_helper.py, lines 98-101):
remove the item with the given id. -/
def delete_file (st : FetchState) (it : Item) : FetchState :=
  ⟨st.files.filter (fun f => !(f.id == it.id)), st.downloaded, st.attempts⟩

/-- Embeds the per-export download loop of `main`
(src/gee_data_fetcher/main.py, lines 232-235): for each item of a search
result, download it and then delete it; an exception from a download aborts
the loop and propagates. -/
def fetch_items (ok : Item → Bool) : List Item → FetchState → FetchState × Except String Unit
  | [], st => (st, Except.ok ())
  | it :: rest, st =>
    let r := download_file ok st it
    if r.2 then fetch_items ok rest (delete_file r.1 it)
    else (r.1, Except.error ( "Download of " ++ it.title ++ " failed."))

/-- The download-then-delete pass for one export name: search, then the
loop (main.py, lines 233-235). -/
def download_and_delete (ok : Item → Bool) (st : FetchState) (name : String) :
    FetchState × Except String Unit :=
  fetch_items ok (search st.files name) st

/-- Embeds the final sweep of `main` (main.py, lines 237-239): search for
the staging namespace name and delete every match. -/
def clean_drive (st : FetchState) : FetchState :=
  (search st.files "GEE").foldl delete_file st

/-! ## sentinel2.py : get_band -/

/-- The symbolic image operations `get_band` can apply: select and scale by
1/10000 then cast to float, select and scale by 1/1000 then cast to float,
or a bare select. -/
inductive BandOp where
  | scaled10000 (band : String)
  | scaled1000 (band : String)
  | raw (band : String)
deriving DecidableEq, Repr

def reflectanceBands : List String :=
  [ "B1", "B2", "B3", "B4", "B5", "B6", "B7", "B8", "B8A", "B9", "B11", "B12" ]

def atmosphericBands : List String := [ "WVP", "AOT" ]

def maskBands : List String :=
  [ "SCL", "TCI_R", "TCI_G", "TCI_B", "MSK_CLDPRB", "MSK_SNWPRB", "QA10", "QA20", "QA60" ]

/-- Embeds `get_band` (src/gee_data_fetcher/sentinel2.py, lines 110-145):
three membership tests; when none matches, the Python function falls off
the end and implicitly returns None, modelled as `none`. -/
def get_band (band : String) : Option BandOp :=
  if band ∈ reflectanceBands then some (BandOp.scaled10000 band)
  else if band ∈ atmosphericBands then some (BandOp.scaled1000 band)
  else if band ∈ maskBands then some (BandOp.raw band)
  else none

/-! ## Calendar lemmas -/


theorem monthLen_pos (leap : Bool) (m : Nat) (h1 : 1 ≤ m) (h2 : m ≤ 12) :
    1 ≤ monthLen leap m := by
  have h : ∀ m : Nat, m < 13 → 1 ≤ m → 1 ≤ monthLen leap m := by cases leap <;> decide
  exact h m (by omega) h1

theorem monthsBefore_succ (leap : Bool) (m : Nat) :
    monthsBefore leap (m + 1) = monthsBefore leap m + monthLen leap m := rfl

theorem monthsBefore_add_le (leap : Bool) (m : Nat) (h1 : 1 ≤ m) (h2 : m ≤ 12) :
    monthsBefore leap m + monthLen leap m ≤ yearLen leap := by
  have h : ∀ m : Nat, m < 13 → 1 ≤ m → monthsBefore leap m + monthLen leap m ≤ yearLen leap := by
    cases leap <;> decide
  exact h m (by omega) h1

theorem monthsBefore_mono (leap : Bool) (a b : Nat) (hab : a ≤ b) (hb : b ≤ 13) :
    monthsBefore leap a ≤ monthsBefore leap b := by
  have h : ∀ a : Nat, a < 14 → ∀ b : Nat, b < 14 → a ≤ b →
      monthsBefore leap a ≤ monthsBefore leap b := by cases leap <;> decide
  exact h a (by omega) b (by omega) hab

theorem monthsBefore_one (leap : Bool) : monthsBefore leap 1 = 0 := by cases leap <;> rfl

theorem monthsBefore_13 (leap : Bool) : monthsBefore leap 13 = yearLen leap := by
  cases leap <;> decide

theorem yearLen_ge (leap : Bool) : 365 ≤ yearLen leap := by cases leap <;> decide

theorem daysInYear_ge (y : Nat) : 365 ≤ daysInYear y := yearLen_ge _

theorem daysBeforeYear_succ (y : Nat) (h : 1 ≤ y) :
    daysBeforeYear (y + 1) = daysBeforeYear y + daysInYear y := by
  unfold daysBeforeYear
  have hy : y + 1 - 1 = (y - 1) + 1 := by omega
  rw [hy]
  set n := y - 1 with hn
  have hyn : y = n + 1 := by omega
  by_cases h400 : n % 400 = 399
  · have h1 : (n + 1) / 400 = n / 400 + 1 := by omega
    have h2 : (n + 1) % 400 = 0 := by omega
    rw [h1, h2, h400]
    have h400sum : daysBeforeYearSmall (399 + 1) = 145731 := by decide
    have hleap : daysInYear y = 366 := by
      rw [hyn]
      unfold daysInYear yearLen isLeap
      have e4 : (n + 1) % 4 = 0 := by omega
      have e100 : (n + 1) % 100 = 0 := by omega
      rw [e4, e100, h2]
      rfl
    rw [hleap, h400sum]
    have hds : daysBeforeYearSmall (0 + 1) = 0 := rfl
    rw [hds]
    ring
  · have h1 : (n + 1) / 400 = n / 400 := by omega
    have h2 : (n + 1) % 400 = n % 400 + 1 := by omega
    rw [h1, h2]
    have hstep : daysBeforeYearSmall (n % 400 + 1 + 1) =
        daysBeforeYearSmall (n % 400 + 1) + daysInYear (n % 400 + 1) := rfl
    rw [hstep]
    have hsh : daysInYear y = daysInYear (n % 400 + 1) := by
      rw [hyn]
      unfold daysInYear yearLen isLeap
      have e4 : (n + 1) % 4 = (n % 400 + 1) % 4 := by omega
      have e100 : (n + 1) % 100 = (n % 400 + 1) % 100 := by omega
      have e400 : (n + 1) % 400 = (n % 400 + 1) % 400 := by omega
      rw [e4, e100, e400]
    rw [hsh]
    ring

theorem daysBeforeYear_cycle (q : Nat) : daysBeforeYear (400 * q + 1) = 146097 * q := by
  unfold daysBeforeYear
  have h1 : (400 * q + 1 - 1) / 400 = q := by omega
  have h2 : (400 * q + 1 - 1) % 400 = 0 := by omega
  rw [h1, h2]
  have hds : daysBeforeYearSmall (0 + 1) = 0 := rfl
  rw [hds]
  omega

theorem daysBeforeYear_mono (a b : Nat) (ha : 1 ≤ a) (hab : a ≤ b) :
    daysBeforeYear a ≤ daysBeforeYear b := by
  induction b with
  | zero => omega
  | succ n ih =>
    rcases Nat.lt_or_ge a (n + 1) with h | h
    · have hn : 1 ≤ n := by omega
      have hih := ih (by omega)
      rw [daysBeforeYear_succ n hn]
      omega
    · have heq : a = n + 1 := by omega
      rw [heq]

theorem monthSearch_spec (leap : Bool) :
    ∀ f m n, 1 ≤ m → m + f = 12 → monthsBefore leap m + n < yearLen leap →
      1 ≤ (monthSearch leap f m n).1 ∧ (monthSearch leap f m n).1 ≤ 12 ∧
      1 ≤ (monthSearch leap f m n).2 ∧
      (monthSearch leap f m n).2 ≤ monthLen leap (monthSearch leap f m n).1 ∧
      monthsBefore leap (monthSearch leap f m n).1 + ((monthSearch leap f m n).2 - 1) =
        monthsBefore leap m + n := by
  intro f
  induction f with
  | zero =>
    intro m n h1 h2 h3
    have hm : m = 12 := by omega
    subst hm
    have hml : monthsBefore leap 12 + monthLen leap 12 = yearLen leap := by
      have h13 := monthsBefore_13 leap
      rw [monthsBefore_succ] at h13
      omega
    simp only [monthSearch]
    exact ⟨by omega, by omega, by omega, by omega, by omega⟩
  | succ f ih =>
    intro m n h1 h2 h3
    simp only [monthSearch]
    by_cases hlt : n < monthLen leap m
    · rw [if_pos hlt]
      refine ⟨h1, by omega, by omega, ?_, ?_⟩
      · show n + 1 ≤ monthLen leap m
        omega
      · show monthsBefore leap m + (n + 1 - 1) = monthsBefore leap m + n
        omega
    · rw [if_neg hlt]
      have hrec := ih (m + 1) (n - monthLen leap m) (by omega) (by omega)
        (by rw [monthsBefore_succ]; omega)
      refine ⟨hrec.1, hrec.2.1, hrec.2.2.1, hrec.2.2.2.1, ?_⟩
      rw [hrec.2.2.2.2, monthsBefore_succ]
      omega

theorem ofOrdinalAux_spec :
    ∀ f y n, n < f → 1 ≤ y →
      (ofOrdinalAux f y n).valid ∧
      (ofOrdinalAux f y n).toOrdinal = daysBeforeYear y + n := by
  intro f
  induction f with
  | zero => intro y n h; omega
  | succ f ih =>
    intro y n hn hy
    simp only [ofOrdinalAux]
    by_cases hlt : n < daysInYear y
    · rw [if_pos hlt]
      have hlt2 : monthsBefore (isLeap y) 1 + n < yearLen (isLeap y) := by
        rw [monthsBefore_one]; simpa using hlt
      have hms := monthSearch_spec (isLeap y) 11 1 n (by omega) (by omega) hlt2
      rw [monthsBefore_one] at hms
      constructor
      · exact ⟨hy, hms.1, hms.2.1, hms.2.2.1, hms.2.2.2.1⟩
      · have hord : (Date.mk y (monthSearch (isLeap y) 11 1 n).1
            (monthSearch (isLeap y) 11 1 n).2).toOrdinal =
            daysBeforeYear y + monthsBefore (isLeap y) (monthSearch (isLeap y) 11 1 n).1 +
            ((monthSearch (isLeap y) 11 1 n).2 - 1) := rfl
        rw [hord]
        omega
    · rw [if_neg hlt]
      have h365 := daysInYear_ge y
      have hrec := ih (y + 1) (n - daysInYear y) (by omega) (by omega)
      refine ⟨hrec.1, ?_⟩
      rw [hrec.2, daysBeforeYear_succ y hy]
      omega

theorem ofOrdinal_valid (n : Nat) : (ofOrdinal n).valid :=
  (ofOrdinalAux_spec (n % 146097 + 1) (400 * (n / 146097) + 1) (n % 146097)
    (by omega) (by omega)).1

theorem toOrdinal_ofOrdinal (n : Nat) : (ofOrdinal n).toOrdinal = n := by
  have h := (ofOrdinalAux_spec (n % 146097 + 1) (400 * (n / 146097) + 1) (n % 146097)
    (by omega) (by omega)).2
  rw [daysBeforeYear_cycle] at h
  show (ofOrdinalAux (n % 146097 + 1) (400 * (n / 146097) + 1) (n % 146097)).toOrdinal = n
  rw [h]
  omega

theorem toOrdinal_bounds (d : Date) (h : d.valid) :
    daysBeforeYear d.year ≤ d.toOrdinal ∧ d.toOrdinal < daysBeforeYear (d.year + 1) := by
  obtain ⟨hy, hm1, hm2, hd1, hd2⟩ := h
  constructor
  · unfold Date.toOrdinal; omega
  · unfold Date.toOrdinal
    have hle := monthsBefore_add_le (isLeap d.year) d.month hm1 hm2
    have hdm : d.day ≤ monthLen (isLeap d.year) d.month := hd2
    rw [daysBeforeYear_succ d.year hy]
    unfold daysInYear
    omega

theorem toOrdinal_lt_toOrdinal (d1 d2 : Date) (h1 : d1.valid) (h2 : d2.valid)
    (h : d1.year < d2.year ∨ (d1.year = d2.year ∧ d1.month < d2.month)) :
    d1.toOrdinal < d2.toOrdinal := by
  rcases h with hy | ⟨hy, hm⟩
  · have hb1 := (toOrdinal_bounds d1 h1).2
    have hb2 := (toOrdinal_bounds d2 h2).1
    have hmono := daysBeforeYear_mono (d1.year + 1) d2.year (by omega) (by omega)
    omega
  · obtain ⟨hy1, hm11, hm12, hd11, hd12⟩ := h1
    obtain ⟨hy2, hm21, hm22, hd21, hd22⟩ := h2
    unfold Date.toOrdinal
    rw [hy]
    have hstep : monthsBefore (isLeap d2.year) (d1.month + 1) ≤
        monthsBefore (isLeap d2.year) d2.month :=
      monthsBefore_mono _ _ _ (by omega) (by omega)
    rw [monthsBefore_succ] at hstep
    have hdm : d1.day ≤ monthLen (isLeap d1.year) d1.month := hd12
    rw [hy] at hdm
    omega

theorem toOrdinal_inj (d1 d2 : Date) (h1 : d1.valid) (h2 : d2.valid)
    (h : d1.toOrdinal = d2.toOrdinal) : d1 = d2 := by
  have hy : d1.year = d2.year := by
    rcases Nat.lt_trichotomy d1.year d2.year with hlt | heq | hgt
    · exact absurd (toOrdinal_lt_toOrdinal d1 d2 h1 h2 (Or.inl hlt)) (by omega)
    · exact heq
    · exact absurd (toOrdinal_lt_toOrdinal d2 d1 h2 h1 (Or.inl hgt)) (by omega)
  have hm : d1.month = d2.month := by
    rcases Nat.lt_trichotomy d1.month d2.month with hlt | heq | hgt
    · exact absurd (toOrdinal_lt_toOrdinal d1 d2 h1 h2 (Or.inr ⟨hy, hlt⟩)) (by omega)
    · exact heq
    · exact absurd (toOrdinal_lt_toOrdinal d2 d1 h2 h1 (Or.inr ⟨hy.symm, hgt⟩)) (by omega)
  have hd : d1.day = d2.day := by
    unfold Date.toOrdinal at h
    rw [hy, hm] at h
    obtain ⟨_, _, _, hd11, _⟩ := h1
    obtain ⟨_, _, _, hd21, _⟩ := h2
    omega
  cases d1; cases d2
  simp_all

theorem ofOrdinal_toOrdinal (d : Date) (h : d.valid) : ofOrdinal d.toOrdinal = d :=
  toOrdinal_inj _ _ (ofOrdinal_valid _) h (toOrdinal_ofOrdinal _)


/-! ## Date and DateTime arithmetic lemmas -/


theorem addDays_toOrdinal (d : Date) (k : Nat) :
    (d.addDays k).toOrdinal = d.toOrdinal + k := toOrdinal_ofOrdinal _

theorem addDays_valid (d : Date) (k : Nat) : (d.addDays k).valid := ofOrdinal_valid _

theorem addDays_zero (d : Date) (h : d.valid) : d.addDays 0 = d := by
  unfold Date.addDays
  rw [Nat.add_zero]
  exact ofOrdinal_toOrdinal d h

theorem subDays_toOrdinal (d : Date) (k : Nat) :
    (d.subDays k).toOrdinal = d.toOrdinal - k := toOrdinal_ofOrdinal _

theorem subDays_valid (d : Date) (k : Nat) : (d.subDays k).valid := ofOrdinal_valid _

theorem addMonths_valid (d : Date) (h : d.valid) (k : Nat) : (d.addMonths k).valid := by
  obtain ⟨hy, hm1, hm2, hd1, hd2⟩ := h
  refine ⟨?_, ?_, ?_, ?_, ?_⟩
  · show 1 ≤ (12 * d.year + (d.month - 1) + k) / 12
    omega
  · show 1 ≤ (12 * d.year + (d.month - 1) + k) % 12 + 1
    omega
  · show (12 * d.year + (d.month - 1) + k) % 12 + 1 ≤ 12
    omega
  · show 1 ≤ min d.day (daysInMonth ((12 * d.year + (d.month - 1) + k) / 12)
      ((12 * d.year + (d.month - 1) + k) % 12 + 1))
    have hpos := monthLen_pos (isLeap ((12 * d.year + (d.month - 1) + k) / 12))
      ((12 * d.year + (d.month - 1) + k) % 12 + 1) (by omega) (by omega)
    unfold daysInMonth
    omega
  · show min d.day (daysInMonth ((12 * d.year + (d.month - 1) + k) / 12)
      ((12 * d.year + (d.month - 1) + k) % 12 + 1)) ≤
      daysInMonth ((12 * d.year + (d.month - 1) + k) / 12)
      ((12 * d.year + (d.month - 1) + k) % 12 + 1)
    omega

theorem addMonths_zero (d : Date) (h : d.valid) : d.addMonths 0 = d := by
  obtain ⟨hy, hm1, hm2, hd1, hd2⟩ := h
  have h1 : (12 * d.year + (d.month - 1) + 0) / 12 = d.year := by omega
  have h2 : (12 * d.year + (d.month - 1) + 0) % 12 + 1 = d.month := by omega
  unfold Date.addMonths
  rw [h1, h2]
  have h3 : min d.day (daysInMonth d.year d.month) = d.day := by omega
  rw [h3]

theorem addMonths_toOrdinal_lt (d : Date) (h : d.valid) {a b : Nat} (hab : a < b) :
    (d.addMonths a).toOrdinal < (d.addMonths b).toOrdinal := by
  have hva := addMonths_valid d h a
  have hvb := addMonths_valid d h b
  apply toOrdinal_lt_toOrdinal _ _ hva hvb
  show (12 * d.year + (d.month - 1) + a) / 12 < (12 * d.year + (d.month - 1) + b) / 12 ∨
    ((12 * d.year + (d.month - 1) + a) / 12 = (12 * d.year + (d.month - 1) + b) / 12 ∧
     (12 * d.year + (d.month - 1) + a) % 12 + 1 < (12 * d.year + (d.month - 1) + b) % 12 + 1)
  omega

theorem addUnit_usec (dt : DateTime) (u : String) (n : Nat) :
    (dt.addUnit u n).usec = dt.usec := by
  unfold DateTime.addUnit
  split_ifs <;> rfl

theorem addUnit_date_valid (dt : DateTime) (h : dt.date.valid) {u : String}
    (hu : IsPeriodUnit u) (n : Nat) : (dt.addUnit u n).date.valid := by
  rcases hu with hu | hu | hu | hu <;> subst hu <;> unfold DateTime.addUnit
  · rw [if_pos rfl]
    exact addDays_valid _ _
  · rw [if_neg (by decide), if_pos rfl]
    exact addDays_valid _ _
  · rw [if_neg (by decide), if_neg (by decide), if_pos rfl]
    exact addMonths_valid _ h _
  · rw [if_neg (by decide), if_neg (by decide), if_neg (by decide), if_pos rfl]
    exact addMonths_valid _ h _

theorem addUnit_zero (dt : DateTime) (h : dt.date.valid) {u : String}
    (hu : IsPeriodUnit u) : dt.addUnit u 0 = dt := by
  obtain ⟨d, us⟩ := dt
  rcases hu with hu | hu | hu | hu <;> subst hu <;> unfold DateTime.addUnit
  · rw [if_pos rfl]
    rw [show (DateTime.mk d us).date = d from rfl, addDays_zero d h]
  · rw [if_neg (by decide), if_pos rfl]
    rw [show (DateTime.mk d us).date = d from rfl, Nat.mul_zero, addDays_zero d h]
  · rw [if_neg (by decide), if_neg (by decide), if_pos rfl]
    rw [show (DateTime.mk d us).date = d from rfl, addMonths_zero d h]
  · rw [if_neg (by decide), if_neg (by decide), if_neg (by decide), if_pos rfl]
    rw [show (DateTime.mk d us).date = d from rfl, Nat.mul_zero, addMonths_zero d h]

theorem addUnit_ord_lt (dt : DateTime) (h : dt.date.valid) {u : String}
    (hu : IsPeriodUnit u) {a b : Nat} (hab : a < b) :
    (dt.addUnit u a).date.toOrdinal < (dt.addUnit u b).date.toOrdinal := by
  rcases hu with hu | hu | hu | hu <;> subst hu <;> unfold DateTime.addUnit
  · rw [if_pos rfl]
    show (dt.date.addDays a).toOrdinal < (dt.date.addDays b).toOrdinal
    rw [addDays_toOrdinal, addDays_toOrdinal]
    omega
  · rw [if_neg (by decide), if_pos rfl]
    show (dt.date.addDays (7 * a)).toOrdinal < (dt.date.addDays (7 * b)).toOrdinal
    rw [addDays_toOrdinal, addDays_toOrdinal]
    omega
  · rw [if_neg (by decide), if_neg (by decide), if_pos rfl]
    exact addMonths_toOrdinal_lt dt.date h hab
  · rw [if_neg (by decide), if_neg (by decide), if_neg (by decide), if_pos rfl]
    exact addMonths_toOrdinal_lt dt.date h (by omega)

theorem addUnit_key_lt (dt : DateTime) (h : dt.date.valid) {u : String}
    (hu : IsPeriodUnit u) {a b : Nat} (hab : a < b) :
    (dt.addUnit u a).key < (dt.addUnit u b).key := by
  have hord := addUnit_ord_lt dt h hu hab
  unfold DateTime.key
  rw [addUnit_usec, addUnit_usec]
  unfold usecPerDay at hord ⊢
  omega

theorem addUnit_ord_ge (dt : DateTime) (h : dt.date.valid) {u : String}
    (hu : IsPeriodUnit u) {a : Nat} (ha : 0 < a) :
    ∀ k, dt.date.toOrdinal + k ≤ (dt.addUnit u (k * a)).date.toOrdinal := by
  intro k
  induction k with
  | zero =>
    rw [Nat.zero_mul, addUnit_zero dt h hu]
    omega
  | succ n ih =>
    have hlt : (dt.addUnit u (n * a)).date.toOrdinal <
        (dt.addUnit u ((n + 1) * a)).date.toOrdinal := by
      apply addUnit_ord_lt dt h hu
      have hsm : (n + 1) * a = n * a + a := Nat.succ_mul n a
      omega
    omega


/-! ## Range iteration lemmas -/


theorem takeWhile_boundary {α : Type} (p : α → Bool) :
    ∀ (l : List α) (i : Nat), (l.takeWhile p).length = i →
      ∀ x, l[i]? = some x → p x = false := by
  intro l
  induction l with
  | nil => intro i hi x hx; simp at hx
  | cons a t ih =>
    intro i hi x hx
    cases hp : p a
    · rw [List.takeWhile_cons_of_neg (by simp [hp])] at hi
      simp only [List.length_nil] at hi
      subst hi
      simp only [List.getElem?_cons_zero, Option.some.injEq] at hx
      rwa [← hx]
    · rw [List.takeWhile_cons_of_pos hp] at hi
      simp only [List.length_cons] at hi
      cases i with
      | zero => omega
      | succ j =>
        simp only [List.getElem?_cons_succ] at hx
        exact ih j (by omega) x hx

theorem parseDate_valid {s : String} {dt : DateTime} (h : parseDate s = some dt) :
    dt.valid := by
  unfold parseDate at h
  split at h
  · split at h
    · split at h
      · cases h
        refine ⟨by assumption, by norm_num [usecPerDay]⟩
      · exact absurd h (by simp)
    · exact absurd h (by simp)
  · exact absurd h (by simp)

theorem rangeStarts_spec (s e : DateTime) (u : String) (a : Nat)
    (hu : IsPeriodUnit u) (hs : s.date.valid) (he : e.usec < usecPerDay) (ha : 0 < a) :
    ∃ L, rangeStarts s e u a = some L ∧
      (∀ i, (hi : i < L.length) → L.get ⟨i, hi⟩ = s.addUnit u (i * a)) ∧
      (∀ x ∈ L, x.key ≤ e.key) ∧
      ¬ ((s.addUnit u (L.length * a)).key ≤ e.key) ∧
      (s.key ≤ e.key → L.head? = some s) := by
  set B := e.date.toOrdinal - s.date.toOrdinal + 2 with hB
  set g : Nat → DateTime := fun k => s.addUnit u (k * a) with hg
  set X := (List.range B).map g with hX
  set L := X.takeWhile (fun dt => decide (dt.key ≤ e.key)) with hL
  have hrs : rangeStarts s e u a = some L := by
    unfold rangeStarts
    rw [if_neg (by omega)]
  have hpre : L <+: X := List.takeWhile_prefix _
  have hXlen : X.length = B := by simp [hX]
  have hlen : L.length ≤ B := by
    have := hpre.length_le
    omega
  have hXget : ∀ i (hi : i < B), X.get ⟨i, by omega⟩ = g i := by
    intro i hi
    simp [hX]
  have hget : ∀ i (hi : i < L.length), L.get ⟨i, hi⟩ = g i := by
    intro i hi
    have h1 : L.get ⟨i, hi⟩ = X.get ⟨i, by omega⟩ := by
      simpa [List.get_eq_getElem] using hpre.getElem (n := i) hi
    rw [h1, hXget i (by omega)]
  have hg0 : g 0 = s := by
    show s.addUnit u (0 * a) = s
    rw [Nat.zero_mul]
    exact addUnit_zero s hs hu
  have hmem : ∀ x ∈ L, x.key ≤ e.key := by
    intro x hx
    have := List.mem_takeWhile_imp hx
    simpa using this
  have hgusec : ∀ k, (g k).usec = s.usec := fun k => addUnit_usec s u (k * a)
  have hlast : e.key < (g (B - 1)).key := by
    have hord : s.date.toOrdinal + (B - 1) ≤ (g (B - 1)).date.toOrdinal :=
      addUnit_ord_ge s hs hu ha (B - 1)
    have hlt : e.date.toOrdinal < (g (B - 1)).date.toOrdinal := by omega
    have hk1 : (g (B - 1)).key =
        usecPerDay * (g (B - 1)).date.toOrdinal + s.usec := by
      unfold DateTime.key
      rw [hgusec]
    have hk2 : e.key = usecPerDay * e.date.toOrdinal + e.usec := rfl
    rw [hk1, hk2]
    unfold usecPerDay at he ⊢
    omega
  have hlenB : L.length < B := by
    rcases Nat.lt_or_ge L.length B with h | h
    · exact h
    · exfalso
      have hLeq : L = X := hpre.eq_of_length (by omega)
      have hmm : g (B - 1) ∈ X := by
        rw [hX]
        exact List.mem_map_of_mem g (List.mem_range.mpr (by omega))
      rw [← hLeq] at hmm
      have := hmem _ hmm
      omega
  have hbound : ¬ ((g L.length).key ≤ e.key) := by
    have hXi : X[L.length]? = some (g L.length) := by
      rw [hX]
      rw [List.getElem?_map, List.getElem?_range (by omega)]
      rfl
    have hb := takeWhile_boundary (fun dt => decide (dt.key ≤ e.key)) X L.length rfl _ hXi
    simpa using hb
  have hhead : s.key ≤ e.key → L.head? = some s := by
    intro hse
    have h0 : 0 < L.length := by
      rcases Nat.eq_zero_or_pos L.length with h | h
      · exfalso
        rw [h] at hbound
        exact hbound (by rw [hg0]; exact hse)
      · exact h
    rw [List.head?_eq_getElem?, List.getElem?_eq_getElem h0]
    have := hget 0 h0
    rw [List.get_eq_getElem] at this
    rw [this, hg0]
  exact ⟨L, hrs, hget, hmem, hbound, hhead⟩


/-! ## Parser and task-runner lemmas -/


theorem parse_period_concat_ok (ds : List Char) (c : Char) (full : String)
    (hds : ds.all Char.isDigit = true)
    (hc : c ∈ ([ 'd', 'D', 'w', 'W', 'm', 'M', 'y', 'Y' ] : List Char))
    (hunit : parse_period_unit c.toLower = Except.ok full) :
    parse_period (String.mk (ds ++ [c])) =
      Except.ok ((if ds = [] then 1 else digitsToNat ds), full) := by
  have hcd : c.isDigit = false := by fin_cases hc <;> decide
  cases ds with
  | nil =>
    simp only [parse_period, show (String.mk ([] ++ [c])).data = [] ++ [c] from rfl,
      List.getLast?_concat]
    rw [if_neg (by simp [hcd])]
    simp only [hunit]
    rw [if_pos (by simp)]
    simp
  | cons d0 dtl =>
    simp only [parse_period,
      show (String.mk ((d0 :: dtl) ++ [c])).data = (d0 :: dtl) ++ [c] from rfl,
      List.getLast?_concat]
    rw [if_neg (by simp [hcd])]
    simp only [hunit]
    rw [if_neg (by simp)]
    rw [List.dropLast_concat]
    rw [if_pos (by simp [pyIsDigit, hds])]
    simp

theorem parse_period_concat_bad_unit (cs : List Char) (c : Char) (m : String)
    (hne : cs ≠ [] ∨ c.isDigit = false)
    (hunit : parse_period_unit c.toLower = Except.error m) :
    parse_period (String.mk (cs ++ [c])) = Except.error m := by
  simp only [parse_period, show (String.mk (cs ++ [c])).data = cs ++ [c] from rfl,
    List.getLast?_concat]
  rw [if_neg ?hguard]
  · simp only [hunit]
  case hguard =>
    rcases hne with hne | hne
    · intro hand
      have h2 : cs.length + 1 < 2 := by simpa using hand.1
      have h3 : cs.length = 0 := by omega
      exact hne (List.length_eq_zero.mp h3)
    · simp [hne]

theorem parse_period_concat_bad_prefix (pre : List Char) (c : Char) (full : String)
    (hpre : pre ≠ []) (hdig : pyIsDigit pre = false)
    (hunit : parse_period_unit c.toLower = Except.ok full) :
    parse_period (String.mk (pre ++ [c])) =
      Except.error ( "Invalid period size format (" ++ String.mk pre ++ " is not a number).") := by
  have hl0 : 0 < pre.length := List.length_pos.mpr hpre
  simp only [parse_period, show (String.mk (pre ++ [c])).data = pre ++ [c] from rfl,
    List.getLast?_concat]
  rw [if_neg ?hguard]
  · simp only [hunit]
    rw [if_neg (by simp [hpre])]
    rw [if_neg (by rw [List.dropLast_concat]; simp [hdig]), List.dropLast_concat]
  case hguard =>
    intro hand
    have h2 : pre.length + 1 < 2 := by simpa using hand.1
    omega

theorem parse_period_bare_digit_aux (c : Char) (h : c.isDigit = true) :
    parse_period (String.mk [c]) =
      Except.error ( "Invalid period size format (" ++ String.mk [c] ++
        " does not represent a valid period unit).") := by
  simp only [parse_period, show (String.mk [c]).data = [c] from rfl,
    show ([c] : List Char).getLast? = some c from rfl]
  rw [if_pos (by simp [h])]

theorem run_task_all_fail (fails : Nat → Bool) (desc : String) (ut : Nat) :
    ∀ N d i, (∀ k, k ≤ N → fails (i + k) = true) →
      run_task fails desc ut d N i =
        (N + 1, (List.range N).map (fun k => d * 2 ^ k),
         Except.error ( "Task " ++ desc ++ " failed.")) := by
  intro N
  induction N with
  | zero =>
    intro d i h
    have h0 : fails i = true := by simpa using h 0 (by omega)
    simp [run_task, h0]
  | succ n ih =>
    intro d i h
    have h0 : fails i = true := by simpa using h 0 (by omega)
    have hrec := ih (d * 2) (i + 1) (fun k hk => by
      have := h (k + 1) (by omega)
      rwa [show i + (k + 1) = i + 1 + k by omega] at this)
    rw [show run_task fails desc ut d (n + 1) i =
        (if fails i then ((run_task fails desc ut (d * 2) n (i + 1)).1 + 1,
          d :: (run_task fails desc ut (d * 2) n (i + 1)).2.1,
          (run_task fails desc ut (d * 2) n (i + 1)).2.2)
        else (1, [], Except.ok ())) from rfl]
    rw [if_pos h0, hrec]
    rw [show (List.range (n + 1)).map (fun k => d * 2 ^ k) =
      d :: (List.range n).map (fun k => d * 2 * 2 ^ k) from ?_]
    · rw [List.range_succ_eq_map, List.map_cons, List.map_map]
      refine congrArg₂ List.cons (by norm_num) ?_
      congr 1
      funext k
      show d * 2 ^ (k + 1) = d * 2 * 2 ^ k
      ring

theorem run_task_succeeds_after (fails : Nat → Bool) (desc : String) (ut : Nat) :
    ∀ N d i, (∀ k, k < N → fails (i + k) = true) → fails (i + N) = false →
      run_task fails desc ut d (N + 1) i =
        (N + 1, (List.range N).map (fun k => d * 2 ^ k), Except.ok ()) := by
  intro N
  induction N with
  | zero =>
    intro d i h hN
    have h0 : fails i = false := by simpa using hN
    simp [run_task, h0]
  | succ n ih =>
    intro d i h hN
    have h0 : fails i = true := by simpa using h 0 (by omega)
    have hrec := ih (d * 2) (i + 1) (fun k hk => by
      have := h (k + 1) (by omega)
      rwa [show i + (k + 1) = i + 1 + k by omega] at this)
      (by rwa [show i + 1 + n = i + (n + 1) by omega])
    rw [show run_task fails desc ut d (n + 1 + 1) i =
        (if fails i then ((run_task fails desc ut (d * 2) (n + 1) (i + 1)).1 + 1,
          d :: (run_task fails desc ut (d * 2) (n + 1) (i + 1)).2.1,
          (run_task fails desc ut (d * 2) (n + 1) (i + 1)).2.2)
        else (1, [], Except.ok ())) from rfl]
    rw [if_pos h0, hrec]
    rw [show (List.range (n + 1)).map (fun k => d * 2 ^ k) =
      d :: (List.range n).map (fun k => d * 2 * 2 ^ k) from ?_]
    · rw [List.range_succ_eq_map, List.map_cons, List.map_map]
      refine congrArg₂ List.cons (by norm_num) ?_
      congr 1
      funext k
      show d * 2 ^ (k + 1) = d * 2 * 2 ^ k
      ring


/-! ## Fetch-and-clean lemmas -/


theorem fetch_items_files_subset (ok : Item → Bool) :
    ∀ (l : List Item) (st : FetchState), (fetch_items ok l st).1.files ⊆ st.files := by
  intro l
  induction l with
  | nil => intro st x hx; exact hx
  | cons it rest ih =>
    intro st x hx
    by_cases hit : ok it = true
    · rw [show fetch_items ok (it :: rest) st =
          (if (download_file ok st it).2 then
            fetch_items ok rest (delete_file (download_file ok st it).1 it)
          else ((download_file ok st it).1,
            Except.error ( "Download of " ++ it.title ++ " failed."))) from rfl] at hx
      rw [show (download_file ok st it).2 = ok it from rfl, hit, if_pos rfl] at hx
      have hsub := ih (delete_file (download_file ok st it).1 it) hx
      have : (delete_file (download_file ok st it).1 it).files ⊆ st.files := by
        intro y hy
        have : y ∈ (download_file ok st it).1.files := List.mem_of_mem_filter hy
        exact this
      exact this hsub
    · rw [show fetch_items ok (it :: rest) st =
          (if (download_file ok st it).2 then
            fetch_items ok rest (delete_file (download_file ok st it).1 it)
          else ((download_file ok st it).1,
            Except.error ( "Download of " ++ it.title ++ " failed."))) from rfl] at hx
      rw [show (download_file ok st it).2 = ok it from rfl,
        if_neg (by simp [hit])] at hx
      exact hx

theorem fetch_items_downloaded_mono (ok : Item → Bool) :
    ∀ (l : List Item) (st : FetchState) (x : String),
      x ∈ st.downloaded → x ∈ (fetch_items ok l st).1.downloaded := by
  intro l
  induction l with
  | nil => intro st x hx; exact hx
  | cons it rest ih =>
    intro st x hx
    rw [show fetch_items ok (it :: rest) st =
        (if (download_file ok st it).2 then
          fetch_items ok rest (delete_file (download_file ok st it).1 it)
        else ((download_file ok st it).1,
          Except.error ( "Download of " ++ it.title ++ " failed."))) from rfl]
    by_cases hit : ok it = true
    · rw [show (download_file ok st it).2 = ok it from rfl, hit, if_pos rfl]
      apply ih
      show x ∈ (download_file ok st it).1.downloaded
      rw [show (download_file ok st it).1.downloaded =
        (if ok it then st.downloaded ++ [it.title] else st.downloaded) from rfl, hit, if_pos rfl]
      exact List.mem_append_left _ hx
    · rw [show (download_file ok st it).2 = ok it from rfl, if_neg (by simp [hit])]
      show x ∈ (if ok it then st.downloaded ++ [it.title] else st.downloaded)
      rw [if_neg (by simp [hit])]
      exact hx

theorem fetch_items_all_ok (ok : Item → Bool) :
    ∀ (l : List Item) (st : FetchState), (∀ it ∈ l, ok it = true) →
      (fetch_items ok l st).2 = Except.ok () ∧
      ∀ it ∈ l, it.title ∈ (fetch_items ok l st).1.downloaded ∧
        it ∉ (fetch_items ok l st).1.files := by
  intro l
  induction l with
  | nil => intro st h; exact ⟨rfl, by simp⟩
  | cons it rest ih =>
    intro st h
    have hit : ok it = true := h it (by simp)
    have hstep : fetch_items ok (it :: rest) st =
        fetch_items ok rest (delete_file (download_file ok st it).1 it) := by
      rw [show fetch_items ok (it :: rest) st =
          (if (download_file ok st it).2 then
            fetch_items ok rest (delete_file (download_file ok st it).1 it)
          else ((download_file ok st it).1,
            Except.error ( "Download of " ++ it.title ++ " failed."))) from rfl]
      rw [show (download_file ok st it).2 = ok it from rfl, hit, if_pos rfl]
    rw [hstep]
    have hih := ih (delete_file (download_file ok st it).1 it)
      (fun x hx => h x (by simp [hx]))
    refine ⟨hih.1, ?_⟩
    intro x hx
    rcases List.mem_cons.mp hx with hx | hx
    · subst hx
      constructor
      · apply fetch_items_downloaded_mono
        show x.title ∈ (download_file ok st x).1.downloaded
        rw [show (download_file ok st x).1.downloaded =
          (if ok x then st.downloaded ++ [x.title] else st.downloaded) from rfl, hit, if_pos rfl]
        exact List.mem_append_right _ (by simp)
      · intro hmem
        have hsub := fetch_items_files_subset ok rest
          (delete_file (download_file ok st x).1 x) hmem
        have : x ∈ (download_file ok st x).1.files.filter (fun f => !(f.id == x.id)) := hsub
        have := List.of_mem_filter this
        simp at this
    · exact ⟨(hih.2 x hx).1, (hih.2 x hx).2⟩

theorem foldl_delete_files :
    ∀ (l : List Item) (st : FetchState),
      (l.foldl delete_file st).files =
        st.files.filter (fun f => l.all (fun it => !(f.id == it.id))) := by
  intro l
  induction l with
  | nil => intro st; simp
  | cons it rest ih =>
    intro st
    rw [List.foldl_cons, ih]
    show (delete_file st it).files.filter _ = _
    rw [show (delete_file st it).files = st.files.filter (fun f => !(f.id == it.id)) from rfl]
    rw [List.filter_filter]
    apply List.filter_congr
    intro f hf
    simp [List.all_cons, Bool.and_comm]

theorem clean_drive_no_match (st : FetchState) :
    ∀ it ∈ (clean_drive st).files, containsL ( "GEE").data it.title.data = false := by
  intro it hit
  unfold clean_drive at hit
  rw [foldl_delete_files] at hit
  have hmem := List.mem_of_mem_filter hit
  have hall := List.of_mem_filter hit
  by_contra hcon
  have hc : containsL ( "GEE").data it.title.data = true := by
    cases h : containsL ( "GEE").data it.title.data
    · exact absurd h hcon
    · rfl
  have hin : it ∈ search st.files ( "GEE") := by
    unfold search
    exact List.mem_filter.mpr ⟨hmem, hc⟩
  have := List.all_eq_true.mp hall it hin
  simp at this

theorem fetch_items_stops_at_failure (ok : Item → Bool) :
    ∀ (l1 : List Item) (it : Item) (l2 : List Item) (st : FetchState),
      (∀ x ∈ l1, ok x = true) → ok it = false →
      (fetch_items ok (l1 ++ it :: l2) st).1.attempts =
        st.attempts ++ (l1 ++ [it]).map Item.id ∧
      (fetch_items ok (l1 ++ it :: l2) st).2 =
        Except.error ( "Download of " ++ it.title ++ " failed.") := by
  intro l1
  induction l1 with
  | nil =>
    intro it l2 st h1 hit
    rw [List.nil_append]
    rw [show fetch_items ok (it :: l2) st =
        (if (download_file ok st it).2 then
          fetch_items ok l2 (delete_file (download_file ok st it).1 it)
        else ((download_file ok st it).1,
          Except.error ( "Download of " ++ it.title ++ " failed."))) from rfl]
    rw [show (download_file ok st it).2 = ok it from rfl, if_neg (by simp [hit])]
    constructor
    · show st.attempts ++ [it.id] = st.attempts ++ [it].map Item.id
      simp
    · rfl
  | cons x l1 ih =>
    intro it l2 st h1 hit
    have hx : ok x = true := h1 x (by simp)
    rw [List.cons_append]
    rw [show fetch_items ok (x :: (l1 ++ it :: l2)) st =
        (if (download_file ok st x).2 then
          fetch_items ok (l1 ++ it :: l2) (delete_file (download_file ok st x).1 x)
        else ((download_file ok st x).1,
          Except.error ( "Download of " ++ x.title ++ " failed."))) from rfl]
    rw [show (download_file ok st x).2 = ok x from rfl, hx, if_pos rfl]
    have hih := ih it l2 (delete_file (download_file ok st x).1 x)
      (fun y hy => h1 y (by simp [hy])) hit
    refine ⟨?_, hih.2⟩
    rw [hih.1]
    show (st.attempts ++ [x.id]) ++ (l1 ++ [it]).map Item.id =
      st.attempts ++ ((x :: l1) ++ [it]).map Item.id
    simp


/-! ## Unfolding lemmas for iter_periods -/


theorem parse_period_unit_isPeriodUnit {c : Char} {u : String}
    (h : parse_period_unit c = Except.ok u) : IsPeriodUnit u := by
  unfold parse_period_unit at h
  split_ifs at h <;> cases h
  · exact Or.inl rfl
  · exact Or.inr (Or.inl rfl)
  · exact Or.inr (Or.inr (Or.inl rfl))
  · exact Or.inr (Or.inr (Or.inr rfl))

theorem parse_period_isPeriodUnit {t : String} {n : Nat} {u : String}
    (h : parse_period t = Except.ok (n, u)) : IsPeriodUnit u := by
  unfold parse_period at h
  split at h
  · exact absurd h (by simp)
  · split at h
    · exact absurd h (by simp)
    · split at h
      · exact absurd h (by simp)
      · rename_i unit hunit
        have hpu := parse_period_unit_isPeriodUnit hunit
        split at h
        · cases h
          exact hpu
        · split at h
          · cases h
            exact hpu
          · exact absurd h (by simp)

theorem freqSpec_isPeriodUnit {fTok : Option String} {sz : Nat} {su : String}
    {f : Nat} {fu : String} (hsu : IsPeriodUnit su)
    (h : freqSpec fTok sz su = Except.ok (f, fu)) : IsPeriodUnit fu := by
  unfold freqSpec at h
  split at h
  · exact parse_period_isPeriodUnit h
  · cases h
    exact hsu

theorem iter_periods_eq (now S E : DateTime) (s e szTok : String) (fTok : Option String)
    (sz f : Nat) (su fu : String)
    (hs : parseDate s = some S)
    (he : (if e = "now" then some now else parseDate e) = some E)
    (hsz : parse_period szTok = Except.ok (sz, su))
    (hf : freqSpec fTok sz su = Except.ok (f, fu)) :
    iter_periods now s e szTok fTok =
      (rangeStarts S E fu f).map
        (fun starts => starts.map (fun ps => ⟨ps, periodEnd ps su sz⟩)) := by
  unfold iter_periods
  rw [hs]
  dsimp only
  rw [he]
  dsimp only
  rw [hsz]
  dsimp only
  rw [hf]
  dsimp only
  cases hr : rangeStarts S E fu f <;> rfl

theorem iter_periods_inv (now : DateTime) (s e szTok : String) (fTok : Option String)
    (L : List Interval) (h : iter_periods now s e szTok fTok = some L) :
    ∃ S E sz su f fu starts,
      parseDate s = some S ∧
      (if e = "now" then some now else parseDate e) = some E ∧
      parse_period szTok = Except.ok (sz, su) ∧
      freqSpec fTok sz su = Except.ok (f, fu) ∧
      rangeStarts S E fu f = some starts ∧
      L = starts.map (fun ps => ⟨ps, periodEnd ps su sz⟩) := by
  unfold iter_periods at h
  split at h
  · exact absurd h (by simp)
  · split at h
    · exact absurd h (by simp)
    · split at h
      · exact absurd h (by simp)
      · split at h
        · exact absurd h (by simp)
        · split at h
          · exact absurd h (by simp)
          · cases h
            exact ⟨_, _, _, _, _, _, _, by assumption, by assumption, by assumption,
              by assumption, by assumption, rfl⟩

theorem rangeStarts_mem (s e : DateTime) (u : String) (a : Nat) (L : List DateTime)
    (h : rangeStarts s e u a = some L) :
    0 < a ∧ ∀ x ∈ L, ∃ k, x = s.addUnit u (k * a) := by
  unfold rangeStarts at h
  split at h
  · exact absurd h (by simp)
  · rename_i ha
    cases h
    refine ⟨by omega, ?_⟩
    intro x hx
    have hmemX := (List.takeWhile_prefix _).subset hx
    rcases List.mem_map.mp hmemX with ⟨k, _, hk⟩
    exact ⟨k, hk.symm⟩


/-! ## Claims C4, C7, C9, C10 -/


/-- C10: for every band name outside the three recognized band lists of
`get_band` (the B1-B12 reflectance bands, WVP/AOT, and the SCL/TCI/mask/QA
bands), `get_band` returns no image at all (the Python function falls off
the end and returns None, modelled as `none`) instead of raising an error. -/
theorem get_band_unknown_returns_none (band : String)
    (h1 : band ∉ reflectanceBands) (h2 : band ∉ atmosphericBands)
    (h3 : band ∉ maskBands) : get_band band = none := by
  unfold get_band
  rw [if_neg h1, if_neg h2, if_neg h3]

/-- Witness for C10 at the concrete unknown band name B10 (a real Sentinel-2
band that the lists omit). -/
theorem get_band_unknown_returns_none_witness :
    ( "B10" ∉ reflectanceBands ∧ "B10" ∉ atmosphericBands ∧ "B10" ∉ maskBands) ∧
      get_band "B10" = none :=
  ⟨⟨by decide, by decide, by decide⟩,
    get_band_unknown_returns_none "B10" (by decide) (by decide) (by decide)⟩

/-- C9: two calls of `iter_periods` with identical inputs whose end argument
is not the sentinel "now" yield identical results, whatever the clock values
of the two calls are: generation is pure and deterministic, the clock being
the only implicit input. -/
theorem iter_periods_now_independent (now1 now2 : DateTime)
    (s e szTok : String) (fTok : Option String) (h : e ≠ "now") :
    iter_periods now1 s e szTok fTok = iter_periods now2 s e szTok fTok := by
  unfold iter_periods
  simp only [if_neg h]

/-- Witness for C9: two calls with different clock values on the concrete
non-"now" inputs of the specification example agree. -/
theorem iter_periods_now_independent_witness :
    iter_periods ⟨⟨2024, 5, 5⟩, 123⟩ "2023-01-01" "2023-03-01" "1M" none =
      iter_periods ⟨⟨2030, 12, 31⟩, 999⟩ "2023-01-01" "2023-03-01" "1M" none :=
  iter_periods_now_independent _ _ _ _ _ _ (by decide)

/-- C7: a single-character token whose character is a digit fails with the
source's invalid-unit error (a bare digit is not a valid period unit) rather
than defaulting the count to 1. -/
theorem parse_period_bare_digit_fails (c : Char) (h : c.isDigit = true) :
    parse_period (String.mk [c]) =
      Except.error ( "Invalid period size format (" ++ String.mk [c] ++
        " does not represent a valid period unit).") :=
  parse_period_bare_digit_aux c h

/-- Witness for C7 at the concrete token "3". -/
theorem parse_period_bare_digit_fails_witness :
    Char.isDigit '3' = true ∧
    parse_period (String.mk ['3']) =
      Except.error ( "Invalid period size format (" ++ String.mk ['3'] ++
        " does not represent a valid period unit).") :=
  ⟨by decide, parse_period_bare_digit_fails '3' (by decide)⟩

/-- C4: for every non-empty token of the shape digits-then-unit-character,
`parse_period` returns the count (default 1 for a length-1 token) and the
unit selected case-insensitively by the fixed mapping d/w/m/y; any other
final character fails with the invalid-unit error; and a multi-character
token whose prefix is not a non-negative integer literal fails with the
invalid-format error.  In particular "1M" parses to one month, "2W" to two
weeks and "Y" to one year. -/
theorem parse_period_spec :
    (∀ (ds : List Char) (c : Char) (full : String),
      ds.all Char.isDigit = true →
      c ∈ ([ 'd', 'D', 'w', 'W', 'm', 'M', 'y', 'Y' ] : List Char) →
      parse_period_unit c.toLower = Except.ok full →
      parse_period (String.mk (ds ++ [c])) =
        Except.ok ((if ds = [] then 1 else digitsToNat ds), full)) ∧
    (∀ (cs : List Char) (c : Char) (m : String),
      (cs ≠ [] ∨ c.isDigit = false) →
      parse_period_unit c.toLower = Except.error m →
      parse_period (String.mk (cs ++ [c])) = Except.error m) ∧
    (∀ (pre : List Char) (c : Char) (full : String),
      pre ≠ [] → pyIsDigit pre = false →
      parse_period_unit c.toLower = Except.ok full →
      parse_period (String.mk (pre ++ [c])) =
        Except.error ( "Invalid period size format (" ++ String.mk pre ++
          " is not a number).")) ∧
    parse_period "1M" = Except.ok (1, "months") ∧
    parse_period "2W" = Except.ok (2, "weeks") ∧
    parse_period "Y" = Except.ok (1, "years") :=
  ⟨parse_period_concat_ok, parse_period_concat_bad_unit, parse_period_concat_bad_prefix,
    rfl, rfl, rfl⟩

/-- Witness for C4: the general success clause applied at the concrete token
"12m" (digits prefix, lowercase unit), together with the discharged
hypotheses. -/
theorem parse_period_spec_witness :
    parse_period (String.mk ([ '1', '2' ] ++ ['m'])) =
      Except.ok ((if ([ '1', '2' ] : List Char) = [] then 1 else digitsToNat [ '1', '2' ]),
        "months") :=
  parse_period_spec.1 [ '1', '2' ] 'm' "months" (by decide) (by decide) rfl


/-! ## Claims C1, C5, C8 -/


/-- C1 counterexample: with max_retry = 1 and exactly the first status
observation failing (the second submission succeeds), run_task returns
success after 2 submissions instead of failing permanently; so the claim
as stated (first N observations fail and max_retry = N implies a final
TaskFailed error) is false: the fatal error needs all N + 1 submissions to
fail. -/
theorem run_task_first_failure_then_success :
    (∀ k, k < 1 → (fun n => n == 0) k = true) ∧
    run_task (fun n => n == 0) "job" 10 30 1 0 = (2, [30], Except.ok ()) :=
  ⟨by decide, rfl⟩

/-- C1 (amended): if all N + 1 submissions of a job fail and max_retry = N,
run_task submits the job exactly N + 1 times and then fails permanently
with the TaskFailed error naming the job; if max_retry = N + 1, the first N
submissions fail and the (N+1)-th succeeds, the call returns success after
exactly N + 1 submissions with no further retries.  In both runs the wait
before the k-th retry is the base delay_time doubled k - 1 times (the
recorded sleeps are d, 2d, 4d, ...), and max_retry decreases by one per
retry, which is what stops the failing run after N retries. -/
theorem run_task_retry_policy (fails : Nat → Bool) (desc : String) (ut d N : Nat) :
    ((∀ k, k ≤ N → fails k = true) →
      run_task fails desc ut d N 0 =
        (N + 1, (List.range N).map (fun k => d * 2 ^ k),
         Except.error ( "Task " ++ desc ++ " failed."))) ∧
    ((∀ k, k < N → fails k = true) → fails N = false →
      run_task fails desc ut d (N + 1) 0 =
        (N + 1, (List.range N).map (fun k => d * 2 ^ k), Except.ok ())) := by
  constructor
  · intro h
    exact run_task_all_fail fails desc ut N d 0 (fun k hk => by simpa using h k hk)
  · intro h hN
    exact run_task_succeeds_after fails desc ut N d 0
      (fun k hk => by simpa using h k hk) (by simpa using hN)

/-- Witness for C1 (amended) at N = 2, delay 30: an always-failing job is
submitted 3 times with sleeps 30, 60 and then fails; a job failing twice
and succeeding on the third submission is submitted 3 times and succeeds. -/
theorem run_task_retry_policy_witness :
    run_task (fun _ => true) "job" 10 30 2 0 =
      (2 + 1, (List.range 2).map (fun k => 30 * 2 ^ k),
       Except.error ( "Task " ++ "job" ++ " failed.")) ∧
    run_task (fun n => n == 0 || n == 1) "job" 10 30 (2 + 1) 0 =
      (2 + 1, (List.range 2).map (fun k => 30 * 2 ^ k), Except.ok ()) :=
  ⟨(run_task_retry_policy (fun _ => true) "job" 10 30 2).1 (fun k _ => rfl),
   (run_task_retry_policy (fun n => n == 0 || n == 1) "job" 10 30 2).2
     (by decide) (by decide)⟩

/-- C5 counterexample: with a single matching item whose download fails
(and would succeed if retried), the orchestrator download loop makes
exactly one download attempt, propagates the failure at once, and leaves
the remote item in place; there is no retry, no doubling delay and no
bounded attempt counter anywhere in the download path, so the claimed
download retry policy is false. -/
theorem download_failure_not_retried :
    (download_and_delete (fun _ => false) ⟨[⟨1, "NDVI_a"⟩], [], []⟩ "NDVI").1.attempts =
      [1] ∧
    (download_and_delete (fun _ => false) ⟨[⟨1, "NDVI_a"⟩], [], []⟩ "NDVI").2 =
      Except.error ( "Download of " ++ "NDVI_a" ++ " failed.") ∧
    (download_and_delete (fun _ => false) ⟨[⟨1, "NDVI_a"⟩], [], []⟩ "NDVI").1.files =
      [⟨1, "NDVI_a"⟩] :=
  ⟨rfl, rfl, rfl⟩

/-- C5 (amended): downloads are never retried.  Each matched item before
the first failing one is downloaded exactly once, the failing item is
downloaded exactly once, the failure propagates immediately as the loop's
error (aborting the loop, so later items are not attempted at all). -/
theorem download_failure_propagates_immediately (ok : Item → Bool) (st : FetchState)
    (name : String) (l1 l2 : List Item) (it : Item)
    (hsearch : search st.files name = l1 ++ it :: l2)
    (h1 : ∀ x ∈ l1, ok x = true) (hit : ok it = false) :
    (download_and_delete ok st name).1.attempts =
      st.attempts ++ (l1 ++ [it]).map Item.id ∧
    (download_and_delete ok st name).2 =
      Except.error ( "Download of " ++ it.title ++ " failed.") := by
  unfold download_and_delete
  rw [hsearch]
  exact fetch_items_stops_at_failure ok l1 it l2 st h1 hit

/-- Witness for C5 (amended): two matching items, the first downloads
fine, the second fails: attempts are exactly one per item up to the
failure, and the loop stops with the failing item's error. -/
theorem download_failure_propagates_immediately_witness :
    (download_and_delete (fun it => it.id == 1)
      ⟨[⟨1, "NDVI_a"⟩, ⟨2, "NDVI_b"⟩], [], []⟩ "NDVI").1.attempts =
      [] ++ (([⟨1, "NDVI_a"⟩] : List Item) ++ ([⟨2, "NDVI_b"⟩] : List Item)).map Item.id ∧
    (download_and_delete (fun it => it.id == 1)
      ⟨[⟨1, "NDVI_a"⟩, ⟨2, "NDVI_b"⟩], [], []⟩ "NDVI").2 =
      Except.error ( "Download of " ++ ( "NDVI_b" : String) ++ " failed.") :=
  download_failure_propagates_immediately (fun it => it.id == 1)
    ⟨[⟨1, "NDVI_a"⟩, ⟨2, "NDVI_b"⟩], [], []⟩ "NDVI"
    ([⟨1, "NDVI_a"⟩] : List Item) [] (⟨2, "NDVI_b"⟩ : Item) rfl (by decide) rfl

/-- C8: with every matched item downloading successfully, the per-export
loop reports success, every matched title is in the local downloads, and
every matched remote copy has been deleted -- the deletion follows the
download unconditionally, with no validation in between (the loop body is
download then delete for any oracle).  And the final sweep deletes every
remaining item of the staging namespace: after clean_drive no item whose
title contains "GEE" is left. -/
theorem fetch_and_clean_deletes (ok : Item → Bool) (st : FetchState) (name : String)
    (hok : ∀ it ∈ search st.files name, ok it = true) :
    ((download_and_delete ok st name).2 = Except.ok () ∧
     ∀ it ∈ search st.files name,
       it.title ∈ (download_and_delete ok st name).1.downloaded ∧
       it ∉ (download_and_delete ok st name).1.files) ∧
    (∀ st2 : FetchState, ∀ it ∈ (clean_drive st2).files,
       containsL ( "GEE" : String).data it.title.data = false) := by
  refine ⟨?_, fun st2 => clean_drive_no_match st2⟩
  exact fetch_items_all_ok ok (search st.files name) st hok

/-- Witness for C8 on a concrete state with one matching item, one
unrelated item and one leftover staging item. -/
theorem fetch_and_clean_deletes_witness :
    ((download_and_delete (fun _ => true)
        ⟨[⟨1, "NDVI_x"⟩, ⟨2, "other"⟩], [], []⟩ "NDVI").2 = Except.ok () ∧
     ∀ it ∈ search ([⟨1, "NDVI_x"⟩, ⟨2, "other"⟩] : List Item) "NDVI",
       it.title ∈ (download_and_delete (fun _ => true)
         ⟨[⟨1, "NDVI_x"⟩, ⟨2, "other"⟩], [], []⟩ "NDVI").1.downloaded ∧
       it ∉ (download_and_delete (fun _ => true)
         ⟨[⟨1, "NDVI_x"⟩, ⟨2, "other"⟩], [], []⟩ "NDVI").1.files) ∧
    (∀ st2 : FetchState, ∀ it ∈ (clean_drive st2).files,
       containsL ( "GEE" : String).data it.title.data = false) :=
  fetch_and_clean_deletes (fun _ => true)
    ⟨[⟨1, "NDVI_x"⟩, ⟨2, "other"⟩], [], []⟩ "NDVI" (fun _ _ => rfl)


/-! ## Claims C2, C3, C6 -/


/-- C2 counterexample: `parse_period` accepts the token "0D" with count 0,
and with "0D" as frequency token the source's range loop re-adds zero days
to the fixed start forever, so `generate_intervals` yields no finite
sequence at all (modelled as `none`), let alone a strictly increasing one
beginning at start. -/
theorem iter_periods_zero_frequency_diverges :
    parse_period "0D" = Except.ok (0, "days") ∧
    iter_periods ⟨⟨2024, 1, 1⟩, 0⟩ "2023-01-01" "2023-01-02" "1D" (some "0D") = none :=
  ⟨rfl, rfl⟩

/-- C2 (amended): for every start <= end and accepted size and frequency
tokens whose frequency count is positive, iter_periods yields a finite list
of intervals whose starts begin at the parsed start, advance by the
frequency amount in the frequency unit at each step (the i-th start is
start plus i*frequency units), are strictly increasing, never exceed end,
and stop exactly when the next computed start would exceed end; an absent
frequency token behaves as the size token; and the concrete call
iter_periods "2023-01-01" "2023-03-01" "1M" none yields exactly the three
monthly intervals of the specification, month-length aware. -/
theorem iter_periods_interval_generation (now S E : DateTime)
    (s e szTok fTok : String) (sz f : Nat) (su fu : String)
    (hs : parseDate s = some S) (he : parseDate e = some E) (hnow : e ≠ "now")
    (hsz : parse_period szTok = Except.ok (sz, su))
    (hf : parse_period fTok = Except.ok (f, fu)) (hfpos : 0 < f)
    (hSE : S.key ≤ E.key) :
    (∃ L, iter_periods now s e szTok (some fTok) = some L ∧
      (L.map Interval.start).head? = some S ∧
      (∀ i, (hi : i < L.length) → (L.get ⟨i, hi⟩).start = S.addUnit fu (i * f)) ∧
      (∀ i j, (hi : i < L.length) → (hj : j < L.length) → i < j →
        (L.get ⟨i, hi⟩).start.key < (L.get ⟨j, hj⟩).start.key) ∧
      (∀ iv ∈ L, iv.start.key ≤ E.key) ∧
      ¬ ((S.addUnit fu (L.length * f)).key ≤ E.key)) ∧
    iter_periods now s e szTok none = iter_periods now s e szTok (some szTok) ∧
    iter_periods now "2023-01-01" "2023-03-01" "1M" none =
      some [⟨⟨⟨2023, 1, 1⟩, 0⟩, ⟨⟨2023, 1, 31⟩, 86399999999⟩⟩,
            ⟨⟨⟨2023, 2, 1⟩, 0⟩, ⟨⟨2023, 2, 28⟩, 86399999999⟩⟩,
            ⟨⟨⟨2023, 3, 1⟩, 0⟩, ⟨⟨2023, 3, 31⟩, 86399999999⟩⟩] := by
  refine ⟨?_, ?_, ?_⟩
  · have hSv := parseDate_valid hs
    have hEv := parseDate_valid he
    have hfu : IsPeriodUnit fu := parse_period_isPeriodUnit hf
    obtain ⟨L0, hr, hget, hmem, hbound, hhead⟩ :=
      rangeStarts_spec S E fu f hfu hSv.1 hEv.2 hfpos
    have hiter := iter_periods_eq now S E s e szTok (some fTok) sz f su fu hs
      (by rw [if_neg hnow]; exact he) hsz (by unfold freqSpec; exact hf)
    rw [hr] at hiter
    refine ⟨L0.map (fun ps => ⟨ps, periodEnd ps su sz⟩), by simpa using hiter,
      ?_, ?_, ?_, ?_, ?_⟩
    · rw [List.map_map]
      rw [show (Interval.start ∘ fun ps => (⟨ps, periodEnd ps su sz⟩ : Interval)) =
        id from rfl]
      rw [List.map_id]
      exact hhead hSE
    · intro i hi
      have hi0 : i < L0.length := by simpa using hi
      rw [List.get_eq_getElem, List.getElem_map]
      show L0[i] = S.addUnit fu (i * f)
      have := hget i hi0
      rwa [List.get_eq_getElem] at this
    · intro i j hi hj hij
      have hi0 : i < L0.length := by simpa using hi
      have hj0 : j < L0.length := by simpa using hj
      rw [List.get_eq_getElem, List.get_eq_getElem, List.getElem_map, List.getElem_map]
      show L0[i].key < L0[j].key
      have hgi := hget i hi0
      have hgj := hget j hj0
      rw [List.get_eq_getElem] at hgi hgj
      rw [hgi, hgj]
      exact addUnit_key_lt S hSv.1 hfu (mul_lt_mul_of_pos_right hij hfpos)
    · intro iv hiv
      rcases List.mem_map.mp hiv with ⟨ps, hps, rfl⟩
      exact hmem ps hps
    · rw [List.length_map]
      exact hbound
  · have hiter1 := iter_periods_eq now S E s e szTok none sz sz su su hs
      (by rw [if_neg hnow]; exact he) hsz rfl
    have hiter2 := iter_periods_eq now S E s e szTok (some szTok) sz sz su su hs
      (by rw [if_neg hnow]; exact he) hsz (by unfold freqSpec; exact hsz)
    rw [hiter1, hiter2]
  · rfl

/-- Witness for C2 (amended) at the specification's concrete inputs (with
the frequency token given explicitly as "1M"). -/
theorem iter_periods_interval_generation_witness :
    (∃ L, iter_periods ⟨⟨2024, 1, 1⟩, 0⟩ "2023-01-01" "2023-03-01" "1M" (some "1M") =
        some L ∧
      (L.map Interval.start).head? = some ⟨⟨2023, 1, 1⟩, 0⟩ ∧
      (∀ i, (hi : i < L.length) →
        (L.get ⟨i, hi⟩).start = DateTime.addUnit ⟨⟨2023, 1, 1⟩, 0⟩ "months" (i * 1)) ∧
      (∀ i j, (hi : i < L.length) → (hj : j < L.length) → i < j →
        (L.get ⟨i, hi⟩).start.key < (L.get ⟨j, hj⟩).start.key) ∧
      (∀ iv ∈ L, iv.start.key ≤ DateTime.key ⟨⟨2023, 3, 1⟩, 0⟩) ∧
      ¬ ((DateTime.addUnit ⟨⟨2023, 1, 1⟩, 0⟩ "months" (L.length * 1)).key ≤
        DateTime.key ⟨⟨2023, 3, 1⟩, 0⟩)) ∧
    iter_periods ⟨⟨2024, 1, 1⟩, 0⟩ "2023-01-01" "2023-03-01" "1M" none =
      iter_periods ⟨⟨2024, 1, 1⟩, 0⟩ "2023-01-01" "2023-03-01" "1M" (some "1M") ∧
    iter_periods ⟨⟨2024, 1, 1⟩, 0⟩ "2023-01-01" "2023-03-01" "1M" none =
      some [⟨⟨⟨2023, 1, 1⟩, 0⟩, ⟨⟨2023, 1, 31⟩, 86399999999⟩⟩,
            ⟨⟨⟨2023, 2, 1⟩, 0⟩, ⟨⟨2023, 2, 28⟩, 86399999999⟩⟩,
            ⟨⟨⟨2023, 3, 1⟩, 0⟩, ⟨⟨2023, 3, 31⟩, 86399999999⟩⟩] :=
  iter_periods_interval_generation ⟨⟨2024, 1, 1⟩, 0⟩ ⟨⟨2023, 1, 1⟩, 0⟩ ⟨⟨2023, 3, 1⟩, 0⟩
    "2023-01-01" "2023-03-01" "1M" "1M" 1 1 "months" "months"
    rfl rfl (by decide) rfl rfl (by decide) (by decide)

/-- C3: for every interval generated by iter_periods, the interval end
equals get_period_end of its start with the parsed size and unit (the
period start plus the size in the parsed unit, minus one day, advanced to
the last instant of that day); concretely a one-month period starting
2023-01-01 ends 2023-01-31 at 23:59:59.999999 and not 2023-02-01 at
00:00:00. -/
theorem iter_periods_period_end (now : DateTime) (s e szTok : String)
    (fTok : Option String) (sz : Nat) (su : String) (L : List Interval)
    (hsz : parse_period szTok = Except.ok (sz, su))
    (hit : iter_periods now s e szTok fTok = some L) :
    (∀ iv ∈ L, iv.end_ = get_period_end iv.start su sz) ∧
    get_period_end ⟨⟨2023, 1, 1⟩, 0⟩ "months" 1 = ⟨⟨2023, 1, 31⟩, 86399999999⟩ ∧
    get_period_end ⟨⟨2023, 1, 1⟩, 0⟩ "months" 1 ≠ ⟨⟨2023, 2, 1⟩, 0⟩ := by
  refine ⟨?_, rfl, by decide⟩
  obtain ⟨S, E, sz', su', f, fu, starts, hS, hE, hsz', hf, hr, hL⟩ :=
    iter_periods_inv now s e szTok fTok L hit
  rw [hsz] at hsz'
  injection hsz' with hpq
  injection hpq with h1 h2
  subst h1
  subst h2
  subst hL
  intro iv hiv
  rcases List.mem_map.mp hiv with ⟨ps, _, rfl⟩
  rfl

/-- Witness for C3 at the concrete January-to-March monthly run. -/
theorem iter_periods_period_end_witness :
    (∀ iv ∈ [(⟨⟨⟨2023, 1, 1⟩, 0⟩, ⟨⟨2023, 1, 31⟩, 86399999999⟩⟩ : Interval),
             ⟨⟨⟨2023, 2, 1⟩, 0⟩, ⟨⟨2023, 2, 28⟩, 86399999999⟩⟩,
             ⟨⟨⟨2023, 3, 1⟩, 0⟩, ⟨⟨2023, 3, 31⟩, 86399999999⟩⟩],
      iv.end_ = get_period_end iv.start "months" 1) ∧
    get_period_end ⟨⟨2023, 1, 1⟩, 0⟩ "months" 1 = ⟨⟨2023, 1, 31⟩, 86399999999⟩ ∧
    get_period_end ⟨⟨2023, 1, 1⟩, 0⟩ "months" 1 ≠ ⟨⟨2023, 2, 1⟩, 0⟩ :=
  iter_periods_period_end ⟨⟨2024, 1, 1⟩, 0⟩ "2023-01-01" "2023-03-01" "1M" none
    1 "months" _ rfl rfl

/-- C6 counterexample: `parse_period` accepts the size token "0D" with
count 0, and the resulting intervals end the day before they start: the
interval starting 2023-01-02 ends 2023-01-01 at 23:59:59.999999, so
end >= start fails. -/
theorem interval_end_lt_start_for_zero_size :
    parse_period "0D" = Except.ok (0, "days") ∧
    ∃ L, iter_periods ⟨⟨2024, 1, 1⟩, 0⟩ "2023-01-02" "2023-01-03" "0D" (some "1D") =
        some L ∧
      ∃ iv ∈ L, iv.end_.key < iv.start.key := by
  refine ⟨rfl, ⟨[⟨⟨⟨2023, 1, 2⟩, 0⟩, ⟨⟨2023, 1, 1⟩, 86399999999⟩⟩,
                 ⟨⟨⟨2023, 1, 3⟩, 0⟩, ⟨⟨2023, 1, 2⟩, 86399999999⟩⟩], rfl, ?_⟩⟩
  exact ⟨_, List.mem_cons_self _ _, by decide⟩

/-- C6 (amended): every interval produced by iter_periods from a size token
whose parsed count is positive satisfies end >= start. -/
theorem interval_end_ge_start (now : DateTime) (s e szTok : String)
    (fTok : Option String) (sz : Nat) (su : String) (L : List Interval)
    (hsz : parse_period szTok = Except.ok (sz, su)) (hpos : 0 < sz)
    (hit : iter_periods now s e szTok fTok = some L) :
    ∀ iv ∈ L, iv.start.key ≤ iv.end_.key := by
  obtain ⟨S, E, sz', su', f, fu, starts, hS, hE, hsz', hf, hr, hL⟩ :=
    iter_periods_inv now s e szTok fTok L hit
  rw [hsz] at hsz'
  injection hsz' with hpq
  injection hpq with h1 h2
  subst h1
  subst h2
  subst hL
  have hSv := parseDate_valid hS
  have hsu : IsPeriodUnit su := parse_period_isPeriodUnit hsz
  have hfu : IsPeriodUnit fu := freqSpec_isPeriodUnit hsu hf
  obtain ⟨hfpos, hmemr⟩ := rangeStarts_mem S E fu f starts hr
  intro iv hiv
  rcases List.mem_map.mp hiv with ⟨ps, hps, rfl⟩
  rcases hmemr ps hps with ⟨k, rfl⟩
  have hpsv : (S.addUnit fu (k * f)).date.valid := addUnit_date_valid S hSv.1 hfu _
  have hpsu : (S.addUnit fu (k * f)).usec < usecPerDay := by
    rw [addUnit_usec]
    exact hSv.2
  have h1 : (S.addUnit fu (k * f)).date.toOrdinal + 1 ≤
      ((S.addUnit fu (k * f)).addUnit su (1 * sz)).date.toOrdinal :=
    addUnit_ord_ge (S.addUnit fu (k * f)) hpsv hsu hpos 1
  rw [one_mul] at h1
  show (S.addUnit fu (k * f)).key ≤ (periodEnd (S.addUnit fu (k * f)) su sz).key
  unfold periodEnd DateTime.subDay DateTime.end_of_day
  dsimp only
  unfold DateTime.key
  dsimp only
  rw [subDays_toOrdinal]
  unfold usecPerDay at hpsu ⊢
  omega

/-- Witness for C6 (amended): the first interval of the concrete
January-to-March monthly run has end at least start. -/
theorem interval_end_ge_start_witness :
    (⟨⟨⟨2023, 1, 1⟩, 0⟩, ⟨⟨2023, 1, 31⟩, 86399999999⟩⟩ : Interval).start.key ≤
      (⟨⟨⟨2023, 1, 1⟩, 0⟩, ⟨⟨2023, 1, 31⟩, 86399999999⟩⟩ : Interval).end_.key :=
  interval_end_ge_start ⟨⟨2024, 1, 1⟩, 0⟩ "2023-01-01" "2023-03-01" "1M" none
    1 "months" _ rfl (by decide) rfl _ (by decide)


end GeeFetch
